import Mathlib

/-!
Verification development for the VidSync chat socket server
(src/api/index.ts).

The server keeps two pieces of mutable state:
  * `onlineUsers : OnlineUser[]` — the global presence list, one entry per
    connected socket, pushed as `{socketId, userId: ""}` on connection;
  * `roomUsers : Record<string, OnlineUser[]>` — per-room member lists.
Per-socket session data (`socket.data.room`, `socket.data.userId`) is
modelled as a table keyed by socket id.

Event handlers (`joinRoom`, `leaveRoom`, `chat:message`, `disconnect`,
plus the connection handler) are translated into pure functions from a
`ServerState` to a `StepResult`: the new state, the list of emitted
events, and a flag recording whether the handler raised a runtime error.
The only throwing path in the source is the reference to the undefined
global `name` on the object-identity branch of `joinRoom` (line 70 of
src/api/index.ts); it is modelled by `resolveUid` returning an error.

JavaScript payload values are modelled as follows: a nullish-or-string
position becomes `Option String` (with `none` for null/undefined and
`some s` for a value stringifying to `s`); the `joinRoom` identity
payload, which the code dispatches on by `typeof`, becomes the inductive
`Identity` below.
-/

/-- Mirrors `type OnlineUser = { socketId: string; userId: string }`. -/
structure OnlineUser where
  socketId : String
  userId : String
deriving Repr, DecidableEq

/-- Per-socket session data: `socket.data.room` and `socket.data.userId`.
Both fields start out undefined. -/
structure SocketData where
  room : Option String
  userId : Option String
deriving Repr, DecidableEq

/-- Mirrors `ChatMessagePayload & { room?: string }`, the payload of a
`chat:message` event. Each optional field is `none` when nullish. -/
structure ChatMessagePayload where
  userId : Option String := none
  message : Option String := none
  timestamp : Option String := none
  clientId : Option String := none
  displayName : Option String := none
  room : Option String := none
deriving Repr, DecidableEq

/-- The outgoing `chat:message` object built on lines 122-127 of the
source: `{ userId, message, timestamp, clientId }`. -/
structure OutMessage where
  userId : String
  message : String
  timestamp : String
  clientId : Option String
deriving Repr, DecidableEq

/-- An emitted transport event: `io.emit("usersOnline", ...)`,
`io.to(room).emit("usersOnline", ...)`, or
`io.to(room).emit("chat:message", ...)`. -/
inductive Emit where
  | usersOnlineGlobal (users : List OnlineUser)
  | usersOnlineRoom (room : String) (users : List OnlineUser)
  | chatMessageRoom (room : String) (msg : OutMessage)
deriving Repr, DecidableEq

/-- The `joinRoom` identity payload, classified the way the handler
dispatches on it by truthiness and `typeof`:
  * `absent` — `undefined` or `null` (falsy, caught by `!userPayload`);
  * `str s` — a string (`!userPayload` is true exactly when `s` is empty);
  * `obj uid userId id` — a non-null object; each field is `some s` when
    present and non-nullish, stringifying to `s`;
  * `other falsy s` — any other runtime type, with its truthiness flag
    and its stringification `s`. -/
inductive Identity where
  | absent
  | str (s : String)
  | obj (uid : Option String) (userId : Option String) (id : Option String)
  | other (falsy : Bool) (s : String)
deriving Repr, DecidableEq

/-- The whole mutable state of the server: the global `onlineUsers` list,
the `roomUsers` record (a record lookup `roomUsers[room] ?? []` is total,
so the record is modelled as a total function defaulting to `[]`), and
the per-socket data table. -/
structure ServerState where
  onlineUsers : List OnlineUser
  roomUsers : String → List OnlineUser
  data : String → SocketData

/-- Server state at startup: no connections, no rooms. -/
def initState : ServerState :=
  { onlineUsers := [], roomUsers := fun _ => [], data := fun _ => ⟨none, none⟩ }

/-- Result of running one event handler: the state after it, the events
it emitted in order, and whether it raised a runtime error. -/
structure StepResult where
  state : ServerState
  emits : List Emit
  threw : Bool

/-- JavaScript whitespace as recognized by `String.prototype.trim`
(the ASCII subset: space, tab, line feed, vertical tab, form feed,
carriage return). -/
def isJsWhitespace (c : Char) : Bool :=
  c == ' ' || c == '\t' || c == '\n' || c == '\x0b' || c == '\x0c' || c == '\r'

/-- `s.trim()` — drop leading and trailing whitespace. -/
def jsTrim (s : String) : String :=
  ⟨((s.data.dropWhile isJsWhitespace).reverse.dropWhile isJsWhitespace).reverse⟩

/-- `(roomRaw ?? "").toString().trim()` — lines 56 and 94. -/
def normalizeRoom (roomRaw : Option String) : String :=
  jsTrim (roomRaw.getD "")

/-- Identity resolution, lines 62-74 of the source:

```
if (!userPayload)                 uid = socket.id;
else if (typeof === "string")     uid = userPayload;
else if (typeof === "object")   { uid = String(uid ?? userId ?? id ?? "");
                                  if (!uid && name) uid = name; }
else                              uid = String(userPayload);
if (!uid) uid = socket.id;
```

On the object branch, when none of the three fields yields a non-empty
string, `!uid` is true and evaluating the undefined global `name` raises
a `ReferenceError`; that path is the `.error` result. -/
def resolveUid (socketId : String) : Identity → Except Unit String
  | Identity.absent => Except.ok socketId
  | Identity.str s => Except.ok (if s.isEmpty then socketId else s)
  | Identity.obj uid userId id =>
      let u := ((uid.orElse (fun _ => userId)).orElse (fun _ => id)).getD ""
      if u.isEmpty then Except.error () else Except.ok u
  | Identity.other falsy s =>
      if falsy then Except.ok socketId
      else Except.ok (if s.isEmpty then socketId else s)

/-- Store a member list under a room key, `roomUsers[room] = users`. -/
def ServerState.setRoomUsers (st : ServerState) (room : String)
    (users : List OnlineUser) : ServerState :=
  { st with roomUsers := fun r => if r == room then users else st.roomUsers r }

/-- Update one socket's session data entry. -/
def ServerState.setData (st : ServerState) (sid : String) (d : SocketData) :
    ServerState :=
  { st with data := fun s => if s == sid then d else st.data s }

/-- `users[existingIdx] = { socketId, userId: uid }` where `existingIdx`
is the index of the first entry whose `socketId` matches: replace the
first matching member in place, leave everything else untouched. -/
def replaceFirst (users : List OnlineUser) (sid uid : String) :
    List OnlineUser :=
  match users with
  | [] => []
  | u :: rest =>
      if u.socketId == sid then ⟨sid, uid⟩ :: rest
      else u :: replaceFirst rest sid uid

/-- Lines 76-83 of the source: look up the room's list (`?? []`), then
either replace the first member whose `socketId` matches (`findIndex`
followed by an indexed assignment) or push a new member at the end. -/
def joinUpdate (users : List OnlineUser) (sid uid : String) :
    List OnlineUser :=
  if users.any (fun u => u.socketId == sid) then replaceFirst users sid uid
  else users ++ [⟨sid, uid⟩]

/-- The `connection` handler body that runs before any per-socket event
(lines 50-51): push `{socketId, userId: ""}` onto `onlineUsers` and emit
the global list to everyone. -/
def connectHandler (st : ServerState) (sid : String) : StepResult :=
  let users := st.onlineUsers ++ [⟨sid, ""⟩]
  ⟨{ st with onlineUsers := users }, [Emit.usersOnlineGlobal users], false⟩

/-- The `joinRoom` handler, lines 55-90. Normalize the room and return
early when it is empty; record `socket.data.room`; resolve the identity
(which can throw, leaving the already-made mutation in place); insert or
replace the member in the room list; record `socket.data.userId`; emit
the room's member list to the room. -/
def joinRoomHandler (st : ServerState) (sid : String) (roomRaw : Option String)
    (userPayload : Identity) : StepResult :=
  let room := normalizeRoom roomRaw
  if room.isEmpty then ⟨st, [], false⟩
  else
    let st1 := st.setData sid { st.data sid with room := some room }
    match resolveUid sid userPayload with
    | Except.error _ => ⟨st1, [], true⟩
    | Except.ok uid =>
        let users1 := joinUpdate (st1.roomUsers room) sid uid
        let st2 := (st1.setRoomUsers room users1).setData sid
          { st1.data sid with userId := some uid }
        ⟨st2, [Emit.usersOnlineRoom room users1], false⟩

/-- The `leaveRoom` handler, lines 93-104. Normalize the room and return
early when empty; filter the socket out of the room's list; emit the
resulting list to the room unconditionally; delete `socket.data.room`
and `socket.data.userId`. -/
def leaveRoomHandler (st : ServerState) (sid : String)
    (roomRaw : Option String) : StepResult :=
  let room := normalizeRoom roomRaw
  if room.isEmpty then ⟨st, [], false⟩
  else
    let users := st.roomUsers room
    let users1 := users.filter (fun u => u.socketId != sid)
    let st1 := (st.setRoomUsers room users1).setData sid ⟨none, none⟩
    ⟨st1, [Emit.usersOnlineRoom room users1], false⟩

/-- The registry lookup on line 120: the first member of `room` whose
`socketId` matches the sender. -/
def lookupMember (st : ServerState) (room sid : String) : Option OnlineUser :=
  (st.roomUsers room).find? (fun u => u.socketId == sid)

/-- The `chat:message` handler, lines 107-131. Drop the event when the
trimmed message is empty, and when neither the payload nor the socket
data carries a truthy room; otherwise build the outgoing message and
emit it to the room. `now` stands for `new Date().toISOString()`. -/
def chatMessageHandler (st : ServerState) (sid : String)
    (payload : ChatMessagePayload) (now : String) : StepResult :=
  let trimmedMessage := jsTrim (payload.message.getD "")
  if trimmedMessage.isEmpty then ⟨st, [], false⟩
  else
    match payload.room.orElse (fun _ => (st.data sid).room) with
    | none => ⟨st, [], false⟩
    | some room =>
        if room.isEmpty then ⟨st, [], false⟩
        else
          let sender := lookupMember st room sid
          let outgoingMessage : OutMessage :=
            { userId := payload.userId.getD
                ((sender.map (fun u => u.userId)).getD sid),
              message := trimmedMessage,
              timestamp := payload.timestamp.getD now,
              clientId := payload.clientId }
          ⟨st, [Emit.chatMessageRoom room outgoingMessage], false⟩

/-- The `disconnect` handler, lines 134-148. Filter the socket out of
`onlineUsers`; when `socket.data.room` is set, filter it out of that
room's list and emit the list to the room; finally emit the global list
to everyone. -/
def disconnectHandler (st : ServerState) (sid : String) : StepResult :=
  let online := st.onlineUsers.filter (fun u => u.socketId != sid)
  match (st.data sid).room with
  | some room =>
      let users := st.roomUsers room
      let users1 := users.filter (fun u => u.socketId != sid)
      let st1 := { st.setRoomUsers room users1 with onlineUsers := online }
      ⟨st1, [Emit.usersOnlineRoom room users1, Emit.usersOnlineGlobal online],
        false⟩
  | none =>
      ⟨{ st with onlineUsers := online }, [Emit.usersOnlineGlobal online], false⟩

/-- One inbound transport event together with its arguments. The `now`
argument of `chatMsg` is the wall-clock ISO-8601 string the handler
would read. -/
inductive Event where
  | connect (sid : String)
  | joinRoom (sid : String) (roomRaw : Option String) (payload : Identity)
  | leaveRoom (sid : String) (roomRaw : Option String)
  | chatMsg (sid : String) (payload : ChatMessagePayload) (now : String)
  | disconnect (sid : String)
deriving Repr

/-- Dispatch one event to its handler. -/
def step (st : ServerState) : Event → StepResult
  | Event.connect sid => connectHandler st sid
  | Event.joinRoom sid roomRaw payload => joinRoomHandler st sid roomRaw payload
  | Event.leaveRoom sid roomRaw => leaveRoomHandler st sid roomRaw
  | Event.chatMsg sid payload now => chatMessageHandler st sid payload now
  | Event.disconnect sid => disconnectHandler st sid

/-- Run a sequence of events, collecting all emitted events in order. -/
def run (st : ServerState) : List Event → ServerState × List Emit
  | [] => (st, [])
  | e :: rest =>
      let r := step st e
      let p := run r.state rest
      (p.fst, r.emits ++ p.snd)

/-! ## Basic lemmas about the state operations -/

@[simp]
lemma setRoomUsers_onlineUsers (st : ServerState) (room : String)
    (users : List OnlineUser) :
    (st.setRoomUsers room users).onlineUsers = st.onlineUsers := rfl

@[simp]
lemma setRoomUsers_data (st : ServerState) (room : String)
    (users : List OnlineUser) :
    (st.setRoomUsers room users).data = st.data := rfl

@[simp]
lemma setRoomUsers_roomUsers (st : ServerState) (room : String)
    (users : List OnlineUser) (r : String) :
    (st.setRoomUsers room users).roomUsers r =
      if r == room then users else st.roomUsers r := rfl

@[simp]
lemma setData_onlineUsers (st : ServerState) (sid : String) (d : SocketData) :
    (st.setData sid d).onlineUsers = st.onlineUsers := rfl

@[simp]
lemma setData_roomUsers (st : ServerState) (sid : String) (d : SocketData) :
    (st.setData sid d).roomUsers = st.roomUsers := rfl

@[simp]
lemma setData_data (st : ServerState) (sid : String) (d : SocketData)
    (s : String) :
    (st.setData sid d).data s = if s == sid then d else st.data s := rfl

/-- The socket ids of a member list, in order. -/
def socketIds (l : List OnlineUser) : List String :=
  l.map (fun u => u.socketId)

/-- Replacing a member in place does not change the sequence of socket
ids (length and positions included). -/
lemma socketIds_replaceFirst (l : List OnlineUser) (sid uid : String) :
    socketIds (replaceFirst l sid uid) = socketIds l := by
  induction l with
  | nil => rfl
  | cons u rest ih =>
      by_cases h : u.socketId = sid
      · simp [replaceFirst, h, socketIds]
      · simp only [socketIds, List.map_cons] at ih ⊢
        simp [replaceFirst, h, ih]

lemma replaceFirst_length (l : List OnlineUser) (sid uid : String) :
    (replaceFirst l sid uid).length = l.length := by
  have h := socketIds_replaceFirst l sid uid
  simpa [socketIds] using congrArg List.length h

/-- Positional characterization of in-place replacement, assuming no
duplicate socket ids: the entry whose `socketId` matches becomes
`⟨sid, uid⟩`, every other entry is unchanged, all at their original
positions. -/
lemma replaceFirst_getElem (l : List OnlineUser) (sid uid : String)
    (hnd : (socketIds l).Nodup) :
    ∀ (i : Nat) (u : OnlineUser), l[i]? = some u →
      (replaceFirst l sid uid)[i]? =
        some (if u.socketId = sid then ⟨sid, uid⟩ else u) := by
  induction l with
  | nil => intro i u hu; simp at hu
  | cons x rest ih =>
      have hp : x.socketId ∉ socketIds rest ∧ (socketIds rest).Nodup :=
        List.nodup_cons.mp (by simpa only [socketIds, List.map_cons] using hnd)
      intro i u hu
      cases i with
      | zero =>
          have hx : x = u := by simpa using hu
          subst hx
          by_cases h : x.socketId = sid
          · simp [replaceFirst, h]
          · simp [replaceFirst, h]
      | succ j =>
          have hu1 : rest[j]? = some u := by simpa using hu
          by_cases h : x.socketId = sid
          · -- the head was replaced; no later entry can match `sid`
            have humem : u ∈ rest := List.getElem?_mem hu1
            have huneq : ¬ u.socketId = sid := by
              intro hcontra
              exact hp.1 (h ▸ hcontra ▸ List.mem_map.mpr ⟨u, humem, rfl⟩)
            simp [replaceFirst, h, hu1, huneq]
          · simpa [replaceFirst, h] using ih hp.2 j u hu1

/-- A socket id absent from the `any` scan is absent from the id list. -/
lemma not_mem_socketIds_of_any_false (l : List OnlineUser) (sid : String)
    (h : l.any (fun u => u.socketId == sid) = false) :
    sid ∉ socketIds l := by
  intro hmem
  rcases List.mem_map.mp hmem with ⟨u, hu, hid⟩
  have : l.any (fun u => u.socketId == sid) = true :=
    List.any_eq_true.mpr ⟨u, hu, by simp [hid]⟩
  simp [this] at h

/-- The join-time list update keeps socket ids duplicate-free. -/
lemma joinUpdate_nodup (users : List OnlineUser) (sid uid : String)
    (h : (socketIds users).Nodup) :
    (socketIds (joinUpdate users sid uid)).Nodup := by
  unfold joinUpdate
  by_cases ha : users.any (fun u => u.socketId == sid) = true
  · simpa [ha, socketIds_replaceFirst] using h
  · have hb : users.any (fun u => u.socketId == sid) = false :=
      Bool.eq_false_iff.mpr ha
    have hmem : sid ∉ socketIds users := not_mem_socketIds_of_any_false _ _ hb
    simp only [hb, if_neg, Bool.false_eq_true, not_false_eq_true, socketIds,
      List.map_append, List.map_cons, List.map_nil]
    simp only [socketIds] at h hmem
    simp [List.nodup_append, h, hmem]

/-- Filtering a member list keeps socket ids duplicate-free. -/
lemma filter_nodup (users : List OnlineUser) (p : OnlineUser → Bool)
    (h : (socketIds users).Nodup) :
    (socketIds (users.filter p)).Nodup :=
  List.Sublist.nodup (List.Sublist.map _ (List.filter_sublist users)) h

/-! ### Projection lemmas for each handler -/

lemma joinRoom_eq_of_empty (st : ServerState) (sid : String)
    (roomRaw : Option String) (p : Identity)
    (hr : (normalizeRoom roomRaw).isEmpty = true) :
    joinRoomHandler st sid roomRaw p = ⟨st, [], false⟩ := by
  simp [joinRoomHandler, hr]

lemma joinRoom_eq_of_error (st : ServerState) (sid : String)
    (roomRaw : Option String) (p : Identity)
    (hr : (normalizeRoom roomRaw).isEmpty = false)
    (he : resolveUid sid p = Except.error ()) :
    joinRoomHandler st sid roomRaw p =
      ⟨st.setData sid { st.data sid with room := some (normalizeRoom roomRaw) },
        [], true⟩ := by
  simp [joinRoomHandler, hr, he]

lemma joinRoom_eq_of_ok (st : ServerState) (sid : String)
    (roomRaw : Option String) (p : Identity) (uid : String)
    (hr : (normalizeRoom roomRaw).isEmpty = false)
    (hok : resolveUid sid p = Except.ok uid) :
    joinRoomHandler st sid roomRaw p =
      ⟨((st.setData sid { st.data sid with room := some (normalizeRoom roomRaw)
          }).setRoomUsers (normalizeRoom roomRaw)
            (joinUpdate (st.roomUsers (normalizeRoom roomRaw)) sid uid)).setData
          sid ⟨some (normalizeRoom roomRaw), some uid⟩,
        [Emit.usersOnlineRoom (normalizeRoom roomRaw)
          (joinUpdate (st.roomUsers (normalizeRoom roomRaw)) sid uid)],
        false⟩ := by
  simp [joinRoomHandler, hr, hok, ServerState.setData, ServerState.setRoomUsers]

lemma leaveRoom_eq_of_empty (st : ServerState) (sid : String)
    (roomRaw : Option String)
    (hr : (normalizeRoom roomRaw).isEmpty = true) :
    leaveRoomHandler st sid roomRaw = ⟨st, [], false⟩ := by
  simp [leaveRoomHandler, hr]

lemma leaveRoom_eq (st : ServerState) (sid : String) (roomRaw : Option String)
    (hr : (normalizeRoom roomRaw).isEmpty = false) :
    leaveRoomHandler st sid roomRaw =
      ⟨(st.setRoomUsers (normalizeRoom roomRaw)
          ((st.roomUsers (normalizeRoom roomRaw)).filter
            (fun u => u.socketId != sid))).setData sid ⟨none, none⟩,
        [Emit.usersOnlineRoom (normalizeRoom roomRaw)
          ((st.roomUsers (normalizeRoom roomRaw)).filter
            (fun u => u.socketId != sid))],
        false⟩ := by
  simp [leaveRoomHandler, hr]

lemma connect_eq (st : ServerState) (sid : String) :
    connectHandler st sid =
      ⟨{ st with onlineUsers := st.onlineUsers ++ [⟨sid, ""⟩] },
        [Emit.usersOnlineGlobal (st.onlineUsers ++ [⟨sid, ""⟩])], false⟩ := rfl

lemma chatMessage_state (st : ServerState) (sid : String)
    (p : ChatMessagePayload) (now : String) :
    (chatMessageHandler st sid p now).state = st := by
  unfold chatMessageHandler
  by_cases h1 : (jsTrim (p.message.getD "")).isEmpty = true
  · simp [h1]
  · simp only [Bool.not_eq_true] at h1
    cases hroom : p.room.orElse (fun _ => (st.data sid).room) with
    | none => simp [h1, hroom]
    | some room =>
        by_cases h2 : room.isEmpty = true
        · simp [h1, hroom, h2]
        · simp only [Bool.not_eq_true] at h2
          simp [h1, hroom, h2]

lemma disconnect_eq_of_room (st : ServerState) (sid : String) (room : String)
    (h : (st.data sid).room = some room) :
    disconnectHandler st sid =
      ⟨{ st.setRoomUsers room ((st.roomUsers room).filter
            (fun u => u.socketId != sid)) with
          onlineUsers := st.onlineUsers.filter (fun u => u.socketId != sid) },
        [Emit.usersOnlineRoom room
            ((st.roomUsers room).filter (fun u => u.socketId != sid)),
          Emit.usersOnlineGlobal
            (st.onlineUsers.filter (fun u => u.socketId != sid))],
        false⟩ := by
  simp [disconnectHandler, h]

lemma disconnect_eq_of_no_room (st : ServerState) (sid : String)
    (h : (st.data sid).room = none) :
    disconnectHandler st sid =
      ⟨{ st with
          onlineUsers := st.onlineUsers.filter (fun u => u.socketId != sid) },
        [Emit.usersOnlineGlobal
            (st.onlineUsers.filter (fun u => u.socketId != sid))],
        false⟩ := by
  simp [disconnectHandler, h]

/-! ### Reachable-state invariants -/

/-- Every room's member list mentions each socket id at most once —
the uniqueness invariant of the member registry. -/
def roomsUnique (st : ServerState) : Prop :=
  ∀ room, (socketIds (st.roomUsers room)).Nodup

lemma roomsUnique_init : roomsUnique initState := by
  intro room
  simp [initState, socketIds]

/-- One event preserves the member-uniqueness invariant. -/
lemma roomsUnique_step (st : ServerState) (e : Event)
    (h : roomsUnique st) : roomsUnique (step st e).state := by
  cases e with
  | connect sid => simpa [step, connect_eq] using h
  | joinRoom sid roomRaw p =>
      by_cases hr : (normalizeRoom roomRaw).isEmpty = true
      · simpa [step, joinRoom_eq_of_empty st sid roomRaw p hr] using h
      · have hr1 : (normalizeRoom roomRaw).isEmpty = false :=
          Bool.eq_false_iff.mpr hr
        cases hres : resolveUid sid p with
        | error e =>
            simpa [step, joinRoom_eq_of_error st sid roomRaw p hr1 hres,
              ServerState.setData] using h
        | ok uid =>
            intro room
            simp only [step, joinRoom_eq_of_ok st sid roomRaw p uid hr1 hres,
              setData_roomUsers, setRoomUsers_roomUsers]
            by_cases hrm : room == normalizeRoom roomRaw
            · simp only [hrm, if_pos]
              exact joinUpdate_nodup _ sid uid (h (normalizeRoom roomRaw))
            · simp only [hrm, Bool.false_eq_true, if_neg, not_false_eq_true]
              exact h room
  | leaveRoom sid roomRaw =>
      by_cases hr : (normalizeRoom roomRaw).isEmpty = true
      · simpa [step, leaveRoom_eq_of_empty st sid roomRaw hr] using h
      · have hr1 : (normalizeRoom roomRaw).isEmpty = false :=
          Bool.eq_false_iff.mpr hr
        intro room
        simp only [step, leaveRoom_eq st sid roomRaw hr1, setData_roomUsers,
          setRoomUsers_roomUsers]
        by_cases hrm : room == normalizeRoom roomRaw
        · simp only [hrm, if_pos]
          exact filter_nodup _ _ (h (normalizeRoom roomRaw))
        · simp only [hrm, Bool.false_eq_true, if_neg, not_false_eq_true]
          exact h room
  | chatMsg sid p now => simpa [step, chatMessage_state] using h
  | disconnect sid =>
      cases hroom : (st.data sid).room with
      | none => simpa [step, disconnect_eq_of_no_room st sid hroom] using h
      | some room0 =>
          intro room
          simp only [step, disconnect_eq_of_room st sid room0 hroom,
            setRoomUsers_roomUsers]
          by_cases hrm : room == room0
          · simp only [hrm, if_pos]
            exact filter_nodup _ _ (h room0)
          · simp only [hrm, Bool.false_eq_true, if_neg, not_false_eq_true]
            exact h room

/-- Any state reached by a run from a state satisfying the uniqueness
invariant still satisfies it. -/
lemma roomsUnique_run (st : ServerState) (evs : List Event)
    (h : roomsUnique st) : roomsUnique (run st evs).fst := by
  induction evs generalizing st with
  | nil => simpa [run] using h
  | cons e rest ih =>
      simpa [run] using ih (step st e).state (roomsUnique_step st e h)

lemma joinRoom_onlineUsers (st : ServerState) (sid : String)
    (roomRaw : Option String) (p : Identity) :
    (joinRoomHandler st sid roomRaw p).state.onlineUsers = st.onlineUsers := by
  unfold joinRoomHandler
  by_cases hr : (normalizeRoom roomRaw).isEmpty = true
  · simp [hr]
  · have hr1 : (normalizeRoom roomRaw).isEmpty = false := Bool.eq_false_iff.mpr hr
    cases hres : resolveUid sid p with
    | error e => simp [hr1, hres]
    | ok uid => simp [hr1, hres]

lemma leaveRoom_onlineUsers (st : ServerState) (sid : String)
    (roomRaw : Option String) :
    (leaveRoomHandler st sid roomRaw).state.onlineUsers = st.onlineUsers := by
  unfold leaveRoomHandler
  by_cases hr : (normalizeRoom roomRaw).isEmpty = true
  · simp [hr]
  · have hr1 : (normalizeRoom roomRaw).isEmpty = false := Bool.eq_false_iff.mpr hr
    simp [hr1]

lemma joinRoom_emits_shape (st : ServerState) (sid : String)
    (roomRaw : Option String) (p : Identity) :
    (joinRoomHandler st sid roomRaw p).emits = [] ∨
      ∃ room users,
        (joinRoomHandler st sid roomRaw p).emits =
          [Emit.usersOnlineRoom room users] := by
  unfold joinRoomHandler
  by_cases hr : (normalizeRoom roomRaw).isEmpty = true
  · simp [hr]
  · have hr1 : (normalizeRoom roomRaw).isEmpty = false := Bool.eq_false_iff.mpr hr
    cases hres : resolveUid sid p with
    | error e => simp [hr1, hres]
    | ok uid =>
        refine Or.inr ⟨normalizeRoom roomRaw,
          joinUpdate (st.roomUsers (normalizeRoom roomRaw)) sid uid, ?_⟩
        simp [hr1, hres, ServerState.setData]

lemma leaveRoom_emits_shape (st : ServerState) (sid : String)
    (roomRaw : Option String) :
    (leaveRoomHandler st sid roomRaw).emits = [] ∨
      ∃ room users,
        (leaveRoomHandler st sid roomRaw).emits =
          [Emit.usersOnlineRoom room users] := by
  unfold leaveRoomHandler
  by_cases hr : (normalizeRoom roomRaw).isEmpty = true
  · simp [hr]
  · have hr1 : (normalizeRoom roomRaw).isEmpty = false := Bool.eq_false_iff.mpr hr
    refine Or.inr ⟨normalizeRoom roomRaw,
      (st.roomUsers (normalizeRoom roomRaw)).filter
        (fun u => u.socketId != sid), ?_⟩
    simp [hr1]

lemma chatMessage_emits_shape (st : ServerState) (sid : String)
    (p : ChatMessagePayload) (now : String) :
    (chatMessageHandler st sid p now).emits = [] ∨
      ∃ room msg,
        (chatMessageHandler st sid p now).emits =
          [Emit.chatMessageRoom room msg] := by
  unfold chatMessageHandler
  by_cases h1 : (jsTrim (p.message.getD "")).isEmpty = true
  · simp [h1]
  · simp only [Bool.not_eq_true] at h1
    cases hroom : p.room.orElse (fun _ => (st.data sid).room) with
    | none => simp [h1, hroom]
    | some room =>
        by_cases h2 : room.isEmpty = true
        · simp [h1, hroom, h2]
        · simp only [Bool.not_eq_true] at h2
          refine Or.inr ⟨room,
            { userId := p.userId.getD
                (((lookupMember st room sid).map (fun u => u.userId)).getD sid),
              message := jsTrim (p.message.getD ""),
              timestamp := p.timestamp.getD now,
              clientId := p.clientId }, ?_⟩
          simp [h1, hroom, h2]

/-- Every member of a list has a blank `userId`. -/
def globalBlank (l : List OnlineUser) : Prop :=
  ∀ u ∈ l, u.userId = ""

lemma globalBlank_step_state (st : ServerState) (e : Event)
    (h : globalBlank st.onlineUsers) :
    globalBlank (step st e).state.onlineUsers := by
  cases e with
  | connect sid =>
      intro u hu
      simp only [step, connect_eq] at hu
      rcases List.mem_append.mp hu with h1 | h1
      · exact h u h1
      · simp only [List.mem_singleton] at h1
        simp [h1]
  | joinRoom sid roomRaw p =>
      simpa [step, joinRoom_onlineUsers] using h
  | leaveRoom sid roomRaw =>
      simpa [step, leaveRoom_onlineUsers] using h
  | chatMsg sid p now =>
      simpa [step, chatMessage_state] using h
  | disconnect sid =>
      intro u hu
      cases hroom : (st.data sid).room with
      | none =>
          simp only [step, disconnect_eq_of_no_room st sid hroom] at hu
          exact h u (List.mem_of_mem_filter hu)
      | some room0 =>
          simp only [step, disconnect_eq_of_room st sid room0 hroom] at hu
          exact h u (List.mem_of_mem_filter hu)

lemma globalBlank_step_emits (st : ServerState) (e : Event)
    (h : globalBlank st.onlineUsers) :
    ∀ l, Emit.usersOnlineGlobal l ∈ (step st e).emits → globalBlank l := by
  intro l hl
  cases e with
  | connect sid =>
      simp only [step, connect_eq, List.mem_singleton, Emit.usersOnlineGlobal.injEq] at hl
      subst hl
      intro u hu
      rcases List.mem_append.mp hu with h1 | h1
      · exact h u h1
      · simp only [List.mem_singleton] at h1
        simp [h1]
  | joinRoom sid roomRaw p =>
      rcases joinRoom_emits_shape st sid roomRaw p with hs | ⟨room, users, hs⟩ <;>
        simp only [step] at hl <;> simp [hs] at hl
  | leaveRoom sid roomRaw =>
      rcases leaveRoom_emits_shape st sid roomRaw with hs | ⟨room, users, hs⟩ <;>
        simp only [step] at hl <;> simp [hs] at hl
  | chatMsg sid p now =>
      rcases chatMessage_emits_shape st sid p now with hs | ⟨room, msg, hs⟩ <;>
        simp only [step] at hl <;> simp [hs] at hl
  | disconnect sid =>
      cases hroom : (st.data sid).room with
      | none =>
          simp only [step, disconnect_eq_of_no_room st sid hroom,
            List.mem_singleton, Emit.usersOnlineGlobal.injEq] at hl
          subst hl
          intro u hu
          exact h u (List.mem_of_mem_filter hu)
      | some room0 =>
          simp only [step, disconnect_eq_of_room st sid room0 hroom,
            List.mem_cons, List.mem_singleton] at hl
          rcases hl with h1 | h1
          · exact absurd h1 (by simp)
          · simp only [List.not_mem_nil, or_false, Emit.usersOnlineGlobal.injEq] at h1
            subst h1
            intro u hu
            exact h u (List.mem_of_mem_filter hu)

lemma globalBlank_run (st : ServerState) (evs : List Event)
    (h : globalBlank st.onlineUsers) :
    globalBlank (run st evs).fst.onlineUsers ∧
      ∀ l, Emit.usersOnlineGlobal l ∈ (run st evs).snd → globalBlank l := by
  induction evs generalizing st with
  | nil =>
      refine ⟨by simpa [run] using h, ?_⟩
      intro l hl
      simp [run] at hl
  | cons e rest ih =>
      have h1 := globalBlank_step_state st e h
      have h2 := globalBlank_step_emits st e h
      have ihh := ih (step st e).state h1
      refine ⟨by simpa [run] using ihh.1, ?_⟩
      intro l hl
      simp only [run, List.mem_append] at hl
      rcases hl with hl | hl
      · exact h2 l hl
      · exact ihh.2 l hl

/-! ## The claims -/

/-- Claim C6: a `joinRoom` event whose room argument is empty after
string conversion and trimming is ignored entirely — the returned state
is the input state (registry and per-connection data untouched), no
event is emitted, and nothing is thrown. -/
theorem C6_join_empty_room_ignored (st : ServerState) (sid : String)
    (roomRaw : Option String) (p : Identity)
    (hr : (normalizeRoom roomRaw).isEmpty = true) :
    joinRoomHandler st sid roomRaw p = ⟨st, [], false⟩ :=
  joinRoom_eq_of_empty st sid roomRaw p hr

/-- Witness for C6 at a concrete input: a whitespace-only room name. -/
theorem C6_witness :
    joinRoomHandler initState "a" (some "   ") Identity.absent =
      ⟨initState, [], false⟩ :=
  C6_join_empty_room_ignored initState "a" (some "   ") Identity.absent
    (by decide)

/-- Claim C7: a `chat:message` whose message trims to empty, or which
carries no room in the payload while the connection has no stored room,
produces no outbound event and no error. -/
theorem C7_chat_dropped_cases (st : ServerState) (sid : String)
    (p : ChatMessagePayload) (now : String)
    (h : (jsTrim (p.message.getD "")).isEmpty = true ∨
      (p.room = none ∧ (st.data sid).room = none)) :
    (chatMessageHandler st sid p now).emits = [] ∧
      (chatMessageHandler st sid p now).threw = false := by
  rcases h with h1 | ⟨h2, h3⟩
  · simp [chatMessageHandler, h1]
  · unfold chatMessageHandler
    by_cases h1 : (jsTrim (p.message.getD "")).isEmpty = true
    · simp [h1]
    · have h1f : (jsTrim (p.message.getD "")).isEmpty = false :=
        Bool.eq_false_iff.mpr h1
      simp [h1f, h2, h3, Option.orElse]

/-- Witness for C7: a whitespace-only message is dropped, and so is a
roomless message from a connection that never joined a room. -/
theorem C7_witness :
    ((chatMessageHandler initState "a" { message := some "   " } "T").emits
        = [] ∧
      (chatMessageHandler initState "a" { message := some "   " } "T").threw
        = false) ∧
    ((chatMessageHandler initState "a" { message := some "hi" } "T").emits
        = [] ∧
      (chatMessageHandler initState "a" { message := some "hi" } "T").threw
        = false) :=
  ⟨C7_chat_dropped_cases initState "a" { message := some "   " } "T"
      (Or.inl (by decide)),
    C7_chat_dropped_cases initState "a" { message := some "hi" } "T"
      (Or.inr ⟨rfl, rfl⟩)⟩

/-- Claim C8: every relayed `chat:message` carries `userId` equal to
`payload.userId` when present, else the stored member `userId` for the
sending connection in the resolved room, else the connection id; its
`message` is the trimmed payload message, its `timestamp` is
`payload.timestamp` when present else the current time, and `clientId`
is passed through (absent stays absent). -/
theorem C8_outbound_message_fields (st : ServerState) (sid : String)
    (p : ChatMessagePayload) (now : String) :
    ∀ room msg,
      Emit.chatMessageRoom room msg ∈ (chatMessageHandler st sid p now).emits →
        msg.userId = p.userId.getD
            (((lookupMember st room sid).map (fun u => u.userId)).getD sid) ∧
        msg.message = jsTrim (p.message.getD "") ∧
        msg.timestamp = p.timestamp.getD now ∧
        msg.clientId = p.clientId := by
  intro room msg hmem
  unfold chatMessageHandler at hmem
  by_cases h1 : (jsTrim (p.message.getD "")).isEmpty = true
  · simp [h1] at hmem
  · have h1f : (jsTrim (p.message.getD "")).isEmpty = false :=
      Bool.eq_false_iff.mpr h1
    cases hroom : p.room.orElse (fun _ => (st.data sid).room) with
    | none => simp [h1f, hroom] at hmem
    | some room0 =>
        by_cases h2 : room0.isEmpty = true
        · simp [h1f, hroom, h2] at hmem
        · have h2f : room0.isEmpty = false := Bool.eq_false_iff.mpr h2
          simp only [h1f, hroom, h2f, Bool.false_eq_true, if_neg,
            not_false_eq_true, List.mem_singleton,
            Emit.chatMessageRoom.injEq] at hmem
          rcases hmem with ⟨hr, hm⟩
          subst hr
          subst hm
          exact ⟨rfl, rfl, rfl, rfl⟩

/-- Witness for C8: a concrete relay where the payload carries no
`userId`, the sender is a stored member, and no timestamp is given. -/
theorem C8_witness :
    (OutMessage.mk "alice" "hi" "T0" none).userId =
        (({ message := some " hi " } : ChatMessagePayload)).userId.getD
          (((lookupMember
                (run initState [Event.connect "a",
                  Event.joinRoom "a" (some "lobby") (Identity.str "alice")]).fst
                "lobby" "a").map (fun u => u.userId)).getD "a") ∧
      (OutMessage.mk "alice" "hi" "T0" none).message =
        jsTrim ((({ message := some " hi " } : ChatMessagePayload)).message.getD
          "") ∧
      (OutMessage.mk "alice" "hi" "T0" none).timestamp =
        (({ message := some " hi " } : ChatMessagePayload)).timestamp.getD
          "T0" ∧
      (OutMessage.mk "alice" "hi" "T0" none).clientId =
        (({ message := some " hi " } : ChatMessagePayload)).clientId :=
  C8_outbound_message_fields
    (run initState [Event.connect "a",
      Event.joinRoom "a" (some "lobby") (Identity.str "alice")]).fst
    "a" { message := some " hi " } "T0" "lobby"
    (OutMessage.mk "alice" "hi" "T0" none) (by decide)

/-- Claim C3: the claim says no payload can make a handler throw, but a
`joinRoom` whose identity payload is an object with none of `uid`,
`userId`, `id` reaches the reference to the undefined global `name` and
raises a `ReferenceError`: the handler's `threw` flag is set. -/
theorem C3_join_object_identity_throws :
    (joinRoomHandler initState "c1" (some "lobby")
        (Identity.obj none none none)).threw = true ∧
      resolveUid "c1" (Identity.obj none none none) = Except.error () := by
  constructor
  · decide
  · rfl

/-- Claim C2: the claim says an object identity with none of `uid`,
`userId`, `id` resolves to the connection id; in the code that path
instead throws before any member is stored — after the event the room
list is still empty, and no member with `userId = connectionId` (or any
member at all) exists. -/
theorem C2_object_identity_no_fields_not_stored :
    (joinRoomHandler (run initState [Event.connect "c1"]).fst "c1"
        (some "lobby") (Identity.obj none none none)).threw = true ∧
      (joinRoomHandler (run initState [Event.connect "c1"]).fst "c1"
        (some "lobby") (Identity.obj none none none)).state.roomUsers "lobby"
          = [] ∧
      (joinRoomHandler (run initState [Event.connect "c1"]).fst "c1"
        (some "lobby") (Identity.obj none none none)).emits = [] := by
  decide

/-- Claim C10: a `chat:message` carrying a non-empty `payload.room` and a
non-empty trimmed message is relayed to that room even when the sender
never joined it, with `userId` falling back to `payload.userId` when
present, else the sender's connection id. -/
theorem C10_chat_relay_without_membership (st : ServerState) (sid R : String)
    (p : ChatMessagePayload) (now : String)
    (h1 : p.room = some R) (h2 : R.isEmpty = false)
    (h3 : (jsTrim (p.message.getD "")).isEmpty = false)
    (h4 : (st.roomUsers R).all (fun u => u.socketId != sid) = true) :
    (chatMessageHandler st sid p now).emits =
      [Emit.chatMessageRoom R
        { userId := p.userId.getD sid,
          message := jsTrim (p.message.getD ""),
          timestamp := p.timestamp.getD now,
          clientId := p.clientId }] := by
  have hfind : (st.roomUsers R).find? (fun u => u.socketId == sid) = none := by
    apply List.find?_eq_none.mpr
    intro u hu
    have := List.all_eq_true.mp h4 u hu
    simpa using this
  unfold chatMessageHandler
  simp [h3, h1, Option.orElse, h2, lookupMember, hfind]

/-- Witness for C10: socket `b` never joined room `lobby`, yet its
message is relayed there with `userId = "b"`. -/
theorem C10_witness :
    (chatMessageHandler
        (run initState [Event.connect "a", Event.connect "b",
          Event.joinRoom "a" (some "lobby") (Identity.str "alice")]).fst
        "b" { message := some "yo", room := some "lobby" } "T1").emits =
      [Emit.chatMessageRoom "lobby"
        { userId :=
            (({ message := some "yo", room := some "lobby" } :
              ChatMessagePayload)).userId.getD "b",
          message := jsTrim ((({ message := some "yo", room := some "lobby" } :
              ChatMessagePayload)).message.getD ""),
          timestamp := (({ message := some "yo", room := some "lobby" } :
              ChatMessagePayload)).timestamp.getD "T1",
          clientId := (({ message := some "yo", room := some "lobby" } :
              ChatMessagePayload)).clientId }] :=
  C10_chat_relay_without_membership
    (run initState [Event.connect "a", Event.connect "b",
      Event.joinRoom "a" (some "lobby") (Identity.str "alice")]).fst
    "b" "lobby" { message := some "yo", room := some "lobby" } "T1"
    rfl (by decide) (by decide) (by decide)

/-- The two-connection state used to refute claim C4: `a` and `b` are
connected, only `a` has joined room `lobby`. -/
def leaveDemoState : ServerState :=
  (run initState [Event.connect "a", Event.connect "b",
    Event.joinRoom "a" (some "lobby") (Identity.str "alice")]).fst

/-- Claim C4 counterexample: socket `b` never joined `lobby` (every
member of the room has a different socket id), yet its `leaveRoom`
still emits a `usersOnline` broadcast to the room — observable by `a` —
so the event is not broadcast-free as claimed. -/
theorem C4_counterexample :
    (leaveDemoState.roomUsers "lobby").all (fun u => u.socketId != "b")
        = true ∧
      (leaveRoomHandler leaveDemoState "b" (some "lobby")).emits =
        [Emit.usersOnlineRoom "lobby" [⟨"a", "alice"⟩]] ∧
      (leaveRoomHandler leaveDemoState "b" (some "lobby")).emits ≠ [] := by
  decide

/-- Claim C4 as amended: a `leaveRoom` for a non-empty room the
connection never joined leaves every room's member sequence unchanged
and raises no error, but it still emits exactly one `usersOnline`
broadcast to that room, carrying the unchanged member sequence. -/
theorem C4_leave_unjoined_amended (st : ServerState) (sid : String)
    (roomRaw : Option String)
    (hr : (normalizeRoom roomRaw).isEmpty = false)
    (hnm : (st.roomUsers (normalizeRoom roomRaw)).all
      (fun u => u.socketId != sid) = true) :
    (leaveRoomHandler st sid roomRaw).threw = false ∧
      (∀ r, (leaveRoomHandler st sid roomRaw).state.roomUsers r =
        st.roomUsers r) ∧
      (leaveRoomHandler st sid roomRaw).emits =
        [Emit.usersOnlineRoom (normalizeRoom roomRaw)
          (st.roomUsers (normalizeRoom roomRaw))] := by
  have hfil : (st.roomUsers (normalizeRoom roomRaw)).filter
      (fun u => u.socketId != sid) = st.roomUsers (normalizeRoom roomRaw) :=
    List.filter_eq_self.mpr (List.all_eq_true.mp hnm)
  refine ⟨?_, ?_, ?_⟩
  · simp [leaveRoom_eq st sid roomRaw hr]
  · intro r
    simp only [leaveRoom_eq st sid roomRaw hr, setData_roomUsers,
      setRoomUsers_roomUsers, hfil]
    by_cases hrr : r == normalizeRoom roomRaw
    · have hre : r = normalizeRoom roomRaw := eq_of_beq hrr
      simp [hrr, hre]
    · simp [hrr]
  · simp [leaveRoom_eq st sid roomRaw hr, hfil]

/-- Witness for the amended C4 at the concrete two-connection state. -/
theorem C4_witness :
    (leaveRoomHandler leaveDemoState "b" (some "lobby")).threw = false ∧
      (leaveRoomHandler leaveDemoState "b" (some "lobby")).state.roomUsers
          "lobby" = leaveDemoState.roomUsers "lobby" ∧
      (leaveRoomHandler leaveDemoState "b" (some "lobby")).emits =
        [Emit.usersOnlineRoom (normalizeRoom (some "lobby"))
          (leaveDemoState.roomUsers (normalizeRoom (some "lobby")))] := by
  have h := C4_leave_unjoined_amended leaveDemoState "b" (some "lobby")
    (by decide) (by decide)
  exact ⟨h.1, h.2.1 "lobby", h.2.2⟩

/-- Number of entries of a member list belonging to a socket id. -/
def countSocket (l : List OnlineUser) (sid : String) : Nat :=
  l.countP (fun u => u.socketId == sid)

/-- Recognizes a global `usersOnline` broadcast. -/
def isGlobalUsersEmit : Emit → Bool
  | Emit.usersOnlineGlobal _ => true
  | _ => false

/-- Recognizes a room-scoped `usersOnline` broadcast. -/
def isRoomUsersEmit : Emit → Bool
  | Emit.usersOnlineRoom _ _ => true
  | _ => false

lemma countSocket_filter (l : List OnlineUser) (sid : String) :
    countSocket (l.filter (fun u => u.socketId != sid)) sid = 0 := by
  induction l with
  | nil => rfl
  | cons u rest ih =>
      by_cases h : u.socketId = sid
      · simp only [countSocket] at ih
        simp [countSocket, List.filter_cons, h, ih]
      · simp only [countSocket] at ih
        simp [countSocket, List.filter_cons, List.countP_cons, h, ih]

lemma length_filter_socket (l : List OnlineUser) (sid : String) :
    (l.filter (fun u => u.socketId != sid)).length + countSocket l sid =
      l.length := by
  induction l with
  | nil => rfl
  | cons u rest ih =>
      simp only [countSocket] at ih
      simp only [countSocket, List.filter_cons, List.countP_cons]
      by_cases h : u.socketId = sid
      · have hb : (u.socketId == sid) = true := by simp [h]
        have hbn : (u.socketId != sid) = false := by simp [bne, hb]
        simp only [hb, hbn, Bool.false_eq_true, if_neg, not_false_eq_true,
          if_pos, List.length_cons]
        omega
      · have hb : (u.socketId == sid) = false := by simp [h]
        have hbn : (u.socketId != sid) = true := by simp [bne, hb]
        simp only [hb, hbn, Bool.false_eq_true, if_neg, not_false_eq_true,
          if_pos, List.length_cons]
        omega

/-- Claim C5: disconnecting a connection that appears exactly once in
the global list (and, when assigned, exactly once in its room's list)
removes it from each exactly once, emits exactly one global
`usersOnline` broadcast, and emits exactly one room-scoped `usersOnline`
broadcast precisely when a room was assigned. -/
theorem C5_disconnect_once (st : ServerState) (sid : String)
    (h1 : countSocket st.onlineUsers sid = 1)
    (h2 : ∀ room, (st.data sid).room = some room →
      countSocket (st.roomUsers room) sid = 1) :
    countSocket (disconnectHandler st sid).state.onlineUsers sid = 0 ∧
      (disconnectHandler st sid).state.onlineUsers.length + 1 =
        st.onlineUsers.length ∧
      ((disconnectHandler st sid).emits.countP isGlobalUsersEmit) = 1 ∧
      (match (st.data sid).room with
        | some room =>
            countSocket ((disconnectHandler st sid).state.roomUsers room)
                sid = 0 ∧
              ((disconnectHandler st sid).state.roomUsers room).length + 1 =
                (st.roomUsers room).length ∧
              ((disconnectHandler st sid).emits.countP isRoomUsersEmit) = 1
        | none =>
            ((disconnectHandler st sid).emits.countP isRoomUsersEmit) = 0) ∧
      (disconnectHandler st sid).threw = false := by
  cases hroom : (st.data sid).room with
  | none =>
      simp only [disconnect_eq_of_no_room st sid hroom, hroom]
      refine ⟨countSocket_filter _ _, ?_, ?_, ?_, ?_⟩
      · have hlen := length_filter_socket st.onlineUsers sid
        omega
      · simp [List.countP_cons, isGlobalUsersEmit]
      · simp [List.countP_cons, isRoomUsersEmit]
      · trivial
  | some room =>
      have hc := h2 room hroom
      simp only [disconnect_eq_of_room st sid room hroom, hroom,
        setRoomUsers_roomUsers, beq_self_eq_true, if_pos]
      refine ⟨countSocket_filter _ _, ?_, ?_, ⟨countSocket_filter _ _, ?_, ?_⟩,
        ?_⟩
      · have hlen := length_filter_socket st.onlineUsers sid
        omega
      · simp [List.countP_cons, isGlobalUsersEmit, isRoomUsersEmit]
      · have hlen := length_filter_socket (st.roomUsers room) sid
        omega
      · simp [List.countP_cons, isGlobalUsersEmit, isRoomUsersEmit]
      · trivial

/-- Witness for C5: disconnecting `a`, a member of `lobby`, in the
two-connection demo state. -/
theorem C5_witness :
    countSocket (disconnectHandler leaveDemoState "a").state.onlineUsers "a"
        = 0 ∧
      (disconnectHandler leaveDemoState "a").state.onlineUsers.length + 1 =
        leaveDemoState.onlineUsers.length ∧
      ((disconnectHandler leaveDemoState "a").emits.countP isGlobalUsersEmit)
        = 1 ∧
      (match (leaveDemoState.data "a").room with
        | some room =>
            countSocket ((disconnectHandler leaveDemoState "a").state.roomUsers
                room) "a" = 0 ∧
              ((disconnectHandler
                leaveDemoState "a").state.roomUsers room).length + 1 =
                (leaveDemoState.roomUsers room).length ∧
              ((disconnectHandler leaveDemoState "a").emits.countP
                isRoomUsersEmit) = 1
        | none =>
            ((disconnectHandler leaveDemoState "a").emits.countP
              isRoomUsersEmit) = 0) ∧
      (disconnectHandler leaveDemoState "a").threw = false :=
  C5_disconnect_once leaveDemoState "a" (by decide)
    (by
      intro room hroom
      have hr : room = "lobby" := by
        have : (leaveDemoState.data "a").room = some "lobby" := by decide
        rw [this] at hroom
        exact (Option.some_inj.mp hroom).symm
      subst hr
      decide)

lemma joinRoom_roomUsers_at_room (st : ServerState) (sid : String)
    (roomRaw : Option String) (p : Identity) (uid : String)
    (hr : (normalizeRoom roomRaw).isEmpty = false)
    (hok : resolveUid sid p = Except.ok uid) :
    (joinRoomHandler st sid roomRaw p).state.roomUsers
        (normalizeRoom roomRaw) =
      joinUpdate (st.roomUsers (normalizeRoom roomRaw)) sid uid := by
  simp [joinRoom_eq_of_ok st sid roomRaw p uid hr hok]

/-- Claim C1: in every state reachable by a sequence of events from
startup, each room's member sequence holds at most one member per
socket id; and when a connection re-joins a room it already occupies
(with an identity resolving to `uid`), the member list keeps its length
and, position by position, every entry is unchanged except the one with
the matching socket id, which becomes `⟨sid, uid⟩` in place. -/
theorem C1_unique_members_and_replace_in_place (evs : List Event) :
    roomsUnique (run initState evs).fst ∧
      ∀ (sid : String) (roomRaw : Option String) (p : Identity) (uid : String),
        (normalizeRoom roomRaw).isEmpty = false →
        resolveUid sid p = Except.ok uid →
        ((run initState evs).fst.roomUsers (normalizeRoom roomRaw)).any
            (fun u => u.socketId == sid) = true →
        ((joinRoomHandler (run initState evs).fst sid roomRaw
              p).state.roomUsers (normalizeRoom roomRaw)).length =
            ((run initState evs).fst.roomUsers
              (normalizeRoom roomRaw)).length ∧
          ∀ (i : Nat) (u : OnlineUser),
            ((run initState evs).fst.roomUsers (normalizeRoom roomRaw))[i]? =
                some u →
              ((joinRoomHandler (run initState evs).fst sid roomRaw
                    p).state.roomUsers (normalizeRoom roomRaw))[i]? =
                some (if u.socketId = sid then ⟨sid, uid⟩ else u) := by
  have hinv := roomsUnique_run initState evs roomsUnique_init
  refine ⟨hinv, ?_⟩
  intro sid roomRaw p uid hr hok hany
  have heq := joinRoom_roomUsers_at_room (run initState evs).fst sid roomRaw
    p uid hr hok
  have hupd : joinUpdate
      ((run initState evs).fst.roomUsers (normalizeRoom roomRaw)) sid uid =
      replaceFirst
        ((run initState evs).fst.roomUsers (normalizeRoom roomRaw)) sid uid :=
    by simp [joinUpdate, hany]
  rw [heq, hupd]
  exact ⟨replaceFirst_length _ _ _,
    replaceFirst_getElem _ sid uid (hinv (normalizeRoom roomRaw))⟩

/-- The one-connection, one-join trace used to witness C1. -/
def joinDemoEvents : List Event :=
  [Event.connect "a", Event.joinRoom "a" (some "lobby") (Identity.str "alice")]

/-- Witness for C1: re-joining `lobby` as `bob` keeps the member list's
length and rewrites position 0 in place. -/
theorem C1_witness :
    ((joinRoomHandler (run initState joinDemoEvents).fst "a" (some "lobby")
          (Identity.str "bob")).state.roomUsers
          (normalizeRoom (some "lobby"))).length =
        ((run initState joinDemoEvents).fst.roomUsers
          (normalizeRoom (some "lobby"))).length ∧
      ((joinRoomHandler (run initState joinDemoEvents).fst "a" (some "lobby")
          (Identity.str "bob")).state.roomUsers
          (normalizeRoom (some "lobby")))[0]? =
        some (if (OnlineUser.mk "a" "alice").socketId = "a"
          then ⟨"a", "bob"⟩ else ⟨"a", "alice"⟩) := by
  have h := (C1_unique_members_and_replace_in_place joinDemoEvents).2 "a"
    (some "lobby") (Identity.str "bob") "bob" (by decide) rfl (by decide)
  exact ⟨h.1, h.2 0 ⟨"a", "alice"⟩ (by decide)⟩

/-- Claim C9: along any run from startup, every entry of the global
presence list keeps an empty `userId` (connection appends
`{socketId, userId: ""}` and no later event updates the entry), so
every global `usersOnline` broadcast carries an empty `userId` for
every listed connection. -/
theorem C9_global_presence_blank (evs : List Event) :
    globalBlank (run initState evs).fst.onlineUsers ∧
      ∀ l, Emit.usersOnlineGlobal l ∈ (run initState evs).snd →
        globalBlank l :=
  globalBlank_run initState evs (by intro u hu; simp [initState] at hu)

/-- Witness for C9: the sole entry broadcast after `a` connects has a
blank user id. -/
theorem C9_witness : (OnlineUser.mk "a" "").userId = "" :=
  (C9_global_presence_blank [Event.connect "a"]).2
    [OnlineUser.mk "a" ""] (by decide) (OnlineUser.mk "a" "") (by decide)
